import Mathlib

/-!
Shallow embedding of the valuation engine of the poke-platform repository
(`services/tasks/strategy_runner/runner.py` and
`services/tasks/strategy_runner/strategies/exp_smoothing_v1.py`).

Modelling conventions:
* Python floats are modelled as exact rationals (`ℚ`); the spec's numeric
  claims are stated with rational tolerances.
* Calendar dates are modelled as natural numbers (day indices); only
  equality, ordering and subtraction of dates are used by the code.
* UUID run identifiers are modelled as natural numbers.
* The relational tables `valuation_daily`, `strategy_run` and
  `trade_proposal` are modelled as in-memory lists inside a `DB` state
  record; SQL `INSERT ... ON CONFLICT ... DO UPDATE` becomes the
  `upsert_valuation` function keyed by the table's primary key.
* Python's stable `list.sort(key=lambda r: r[0])` is modelled by
  `List.insertionSort` on the date component, which is a stable sort.
* The SQL `ORDER BY` of the history fetch is not modelled because
  `generate_proposals` re-sorts every chosen series by date before use.
* `ts_created` / `ts_started` timestamp columns carry no logic and are
  not modelled.
-/

namespace PokePlatform

/-- Price series for one variant: list of (snapshot_date, market price). -/
abbrev Series := List (Nat × ℚ)

/-- Row of the `tcgplayer_price_snapshot` table as selected by
`_fetch_price_history`: (snapshot_date, asset_id, variant, market). -/
structure PriceRow where
  snapshot_date : Nat
  asset_id : String
  variant : String
  market : ℚ
deriving DecidableEq, Repr

/-- Fixed variant preference order from `exp_smoothing_v1.py`. -/
def PREFERRED_VARIANTS : List String := ["normal", "reverseHolofoil"]

/-- Python `variants.get(variant, [])` on the per-asset variant mapping,
modelled as lookup in an association list with default `[]`. -/
def getVariant (variants : List (String × Series)) (v : String) : Series :=
  match variants.find? (fun p => p.1 == v) with
  | some p => p.2
  | none => []

/-- Embedding of `_choose_variant(variants, target_date)`: first preferred
variant with an observation dated exactly `target_date`; otherwise first
preferred variant with any observations; otherwise `(none, [])`. -/
def choose_variant (variants : List (String × Series)) (target_date : Nat) :
    Option String × Series :=
  match PREFERRED_VARIANTS.find?
      (fun v => (getVariant variants v).any (fun r => r.1 == target_date)) with
  | some v => (some v, getVariant variants v)
  | none =>
    match PREFERRED_VARIANTS.find? (fun v => !(getVariant variants v).isEmpty) with
    | some v => (some v, getVariant variants v)
    | none => (none, [])

/-- Embedding of `_compute_ses(prices, alpha)`: on the empty list return
`(0, 0)`; otherwise seed with the first price, fold
`s = alpha * price + (1 - alpha) * s` over the remaining prices in list
order, and return the final value paired with the last price. -/
def compute_ses (prices : Series) (alpha : ℚ) : ℚ × ℚ :=
  match prices with
  | [] => (0, 0)
  | p :: rest =>
    (rest.foldl (fun s r => alpha * r.2 + (1 - alpha) * s) p.2,
     (rest.getLastD p).2)

/-- Python `rows.sort(key=lambda r: r[0])`: stable sort by date. -/
def sortRows (rows : Series) : Series :=
  List.insertionSort (fun a b => a.1 ≤ b.1) rows

/-- Row of the `valuation_daily` table, with the fields of the strategy's
`rationale_json` payload (`alpha`, `variant`, `lookback_days`,
`price_points`, `last_price_date`) inlined as record fields. -/
structure ValuationRecord where
  val_date : Nat
  asset_id : String
  market_price : ℚ
  smooth_price : ℚ
  forecast_price : ℚ
  gap : ℚ
  gap_pct : ℚ
  confidence : ℚ
  variant : Option String
  alpha : ℚ
  lookback_days : Nat
  price_points : Nat
  last_price_date : Nat
  strategy_name : String
  strategy_version : String
  run_id : Nat
deriving DecidableEq, Repr, Inhabited

/-- Body of the per-asset loop of `generate_proposals`: choose a variant,
skip if the series is empty, sort by date, skip if the last date is not
today, smooth, skip if the last raw price is `≤ 0`, otherwise build the
insert tuple for `valuation_daily`. -/
def process_asset (asset_id : String) (variants : List (String × Series))
    (today : Nat) (alpha : ℚ) (lookback : Nat) (sn sv : String) (rid : Nat) :
    Option ValuationRecord :=
  let chosen := choose_variant variants today
  let rows := chosen.2
  if rows = [] then none
  else
    let sorted := sortRows rows
    let last_date := (sorted.getLastD (0, 0)).1
    if last_date ≠ today then none
    else
      let sp := compute_ses sorted alpha
      if sp.2 ≤ 0 then none
      else
        some { val_date := last_date
               asset_id := asset_id
               market_price := sp.2
               smooth_price := sp.1
               forecast_price := sp.1
               gap := sp.1 - sp.2
               gap_pct := (sp.1 - sp.2) / sp.2
               confidence := 1
               variant := chosen.1
               alpha := alpha
               lookback_days := lookback
               price_points := sorted.length
               last_price_date := last_date
               strategy_name := sn
               strategy_version := sv
               run_id := rid }

/-- Update an association list at key `k` with `f`, appending `(k, f d)`
when the key is absent; models mutation of a Python `defaultdict`. -/
def upd_assoc {β : Type} (m : List (String × β)) (k : String) (d : β)
    (f : β → β) : List (String × β) :=
  match m with
  | [] => [(k, f d)]
  | (k0, v) :: rest =>
    if k0 = k then (k0, f v) :: rest else (k0, v) :: upd_assoc rest k d f

/-- Grouping loop of `generate_proposals`: build the nested
`asset_id → variant → [(date, market)]` mapping in encounter order. -/
def group_rows (rows : List PriceRow) : List (String × List (String × Series)) :=
  rows.foldl
    (fun acc r =>
      upd_assoc acc r.asset_id []
        (fun vm => upd_assoc vm r.variant []
          (fun l => l ++ [(r.snapshot_date, r.market)])))
    []

/-- Embedding of the `_fetch_price_history` query: keep rows of tracked
assets, within the lookback window, with market price strictly above the
configured floor, restricted to the two preferred variants. -/
def fetch_price_history (table : List PriceRow) (tracked : List String)
    (start_date : Nat) (min_mp : ℚ) : List PriceRow :=
  table.filter (fun r =>
    decide (r.asset_id ∈ tracked ∧ start_date ≤ r.snapshot_date ∧
            min_mp < r.market ∧ r.variant ∈ PREFERRED_VARIANTS))

/-- Valuation records produced by one invocation of `generate_proposals`
on an already-fetched history, one per non-skipped asset. -/
def ses_inserts (history : List PriceRow) (today : Nat) (alpha : ℚ)
    (lookback : Nat) (sn sv : String) (rid : Nat) : List ValuationRecord :=
  (group_rows history).filterMap
    (fun av => process_asset av.1 av.2 today alpha lookback sn sv rid)

/-- Row of the `trade_proposal` table (fields used by `insert_proposals`). -/
structure Proposal where
  action : String
  asset_id : String
  qty : Nat
  target_price : ℚ
  confidence : ℚ
deriving DecidableEq, Repr

/-- Row of the `strategy_run` audit table. -/
structure RunRecord where
  run_id : Nat
  run_date : Nat
  strategy_name : String
  strategy_version : String
  inserted_proposals : Nat
  note : String
deriving DecidableEq, Repr

/-- Database state threaded through the runner: the three tables the
strategy runner writes. -/
structure DB where
  valuation_daily : List ValuationRecord
  strategy_run : List RunRecord
  trade_proposal : List Proposal
deriving DecidableEq, Repr

/-- Primary key of `valuation_daily`:
`(val_date, asset_id, strategy_name, strategy_version)`. -/
def valKey (r : ValuationRecord) : Nat × String × String × String :=
  (r.val_date, r.asset_id, r.strategy_name, r.strategy_version)

/-- One `INSERT ... ON CONFLICT (primary key) DO UPDATE` into
`valuation_daily`: replace the row with the matching key if present
(overwriting every field, `run_id` included), append otherwise. -/
def upsert_valuation (table : List ValuationRecord) (r : ValuationRecord) :
    List ValuationRecord :=
  if table.any (fun x => decide (valKey x = valKey r)) then
    table.map (fun x => if valKey x = valKey r then r else x)
  else table ++ [r]

/-- Embedding of `already_ran_today(conn)`: a `strategy_run` row exists
for (run_date, strategy_name, strategy_version). -/
def already_ran_today (db : DB) (today : Nat) (sn sv : String) : Bool :=
  db.strategy_run.any (fun r =>
    decide (r.run_date = today ∧ r.strategy_name = sn ∧ r.strategy_version = sv))

/-- Embedding of `generate_proposals(context)` of `exp_smoothing_v1.py`:
fetch the filtered history, compute the per-asset valuation tuples, upsert
them all into `valuation_daily`, and return the empty proposal list (the
strategy returns `[]`). -/
def generate_proposals (db : DB) (table : List PriceRow) (tracked : List String)
    (today : Nat) (alpha min_mp : ℚ) (lookback : Nat) (sn sv : String)
    (rid : Nat) : DB × List Proposal :=
  let history := fetch_price_history table tracked (today - lookback) min_mp
  let inserts := ses_inserts history today alpha lookback sn sv rid
  ({ db with valuation_daily := inserts.foldl upsert_valuation db.valuation_daily },
   [])

/-- Embedding of `insert_proposals(conn, run_id, proposals)`: append every
proposal to `trade_proposal` and return how many were inserted. -/
def insert_proposals (db : DB) (proposals : List Proposal) : DB × Nat :=
  ({ db with trade_proposal := db.trade_proposal ++ proposals },
   proposals.length)

/-- Embedding of `main()` of `runner.py` specialised to the
`exp_smoothing_v1` strategy: if a `strategy_run` row already exists for
(today, strategy, version) do nothing and report `0`; otherwise run the
strategy, insert its (empty) proposal list, append one `strategy_run` row
recording the proposal insert count, and report that count (the count the
program prints in its completion message). -/
def runner_main (db : DB) (table : List PriceRow) (tracked : List String)
    (today : Nat) (alpha min_mp : ℚ) (lookback : Nat) (sn sv : String)
    (rid : Nat) : DB × Nat :=
  if already_ran_today db today sn sv then (db, 0)
  else
    let gp := generate_proposals db table tracked today alpha min_mp lookback sn sv rid
    let ip := insert_proposals gp.1 gp.2
    ({ ip.1 with strategy_run :=
         ip.1.strategy_run ++ [⟨rid, today, sn, sv, ip.2, "ok"⟩] },
     ip.2)

/-- Parameters of one runner invocation, for iterating runs. -/
structure RunParams where
  table : List PriceRow
  tracked : List String
  today : Nat
  alpha : ℚ
  min_mp : ℚ
  lookback : Nat
  strategy_name : String
  strategy_version : String
  run_id : Nat

/-- Fold a sequence of runner invocations over a database state. -/
def run_many (db : DB) (runs : List RunParams) : DB :=
  runs.foldl
    (fun d p =>
      (runner_main d p.table p.tracked p.today p.alpha p.min_mp p.lookback
        p.strategy_name p.strategy_version p.run_id).1)
    db

/-- Primary-key uniqueness invariant of the `valuation_daily` table. -/
def UniqueKeys (table : List ValuationRecord) : Prop :=
  table.Pairwise (fun a b => valKey a ≠ valKey b)

/-- C1: the Smoother (`_compute_ses`) is single exponential smoothing: the
empty series yields `(0, 0)`; a series is smoothed by seeding with the
first observation's price and applying
`smoothed = alpha * price + (1 - alpha) * smoothed` for each subsequent
observation, returning the final smoothed value paired with the last
observation's price; in particular a single-point series `[(d0, p0)]`
yields `(p0, p0)` for every alpha. -/
theorem C1_compute_ses_is_single_exponential_smoothing :
    (∀ alpha : ℚ, compute_ses [] alpha = (0, 0)) ∧
    (∀ (alpha : ℚ) (d0 : Nat) (p0 : ℚ), compute_ses [(d0, p0)] alpha = (p0, p0)) ∧
    (∀ (alpha : ℚ) (ps : Series) (d : Nat) (p : ℚ), ps ≠ [] →
      compute_ses (ps ++ [(d, p)]) alpha =
        (alpha * p + (1 - alpha) * (compute_ses ps alpha).1, p)) := by
  refine ⟨fun _ => rfl, fun _ _ _ => rfl, ?_⟩
  intro alpha ps d p hps
  match ps with
  | q :: rest =>
    simp [compute_ses, List.foldl_append, List.getLastD_concat]

/-- Witness for C1: the step recurrence evaluated on a concrete two-point
series with alpha = 1/2. -/
theorem C1_compute_ses_witness :
    ([((1 : Nat), (10 : ℚ))] ≠ []) ∧
    compute_ses ([((1 : Nat), (10 : ℚ))] ++ [(2, 20)]) (1/2) =
      (1/2 * 20 + (1 - 1/2) * (compute_ses [((1 : Nat), (10 : ℚ))] (1/2)).1, 20) :=
  ⟨by simp,
   C1_compute_ses_is_single_exponential_smoothing.2.2 (1/2) [((1 : Nat), (10 : ℚ))]
     2 20 (by simp)⟩

/-- Helper for C8: folding one smoothing step can never overtake a strictly
increasing tail, provided alpha ≤ 1 and the accumulator starts below the
head price. -/
theorem ses_fold_le (alpha : ℚ) (h1 : alpha ≤ 1) :
    ∀ (rest : Series) (p : Nat × ℚ) (s : ℚ), s ≤ p.2 →
      List.Chain (fun x y : Nat × ℚ => x.2 < y.2) p rest →
      rest.foldl (fun s r => alpha * r.2 + (1 - alpha) * s) s ≤ (rest.getLastD p).2
  | [], _, _, hs, _ => hs
  | q :: rest, p, s, hs, hch => by
    rw [List.chain_cons] at hch
    have hsq : s ≤ q.2 := le_of_lt (lt_of_le_of_lt hs hch.1)
    have hstep : alpha * q.2 + (1 - alpha) * s ≤ q.2 := by
      nlinarith [mul_nonneg (sub_nonneg.mpr h1) (sub_nonneg.mpr hsq)]
    have hrec := ses_fold_le alpha h1 rest q (alpha * q.2 + (1 - alpha) * s) hstep hch.2
    rw [List.foldl_cons, List.getLastD_cons]
    exact hrec

/-- C8 (amended): for every strictly increasing price series and alpha < 1
the smoothed value is at most the final raw price; for the concrete series
`[10,12,14,16,18]` with alpha = 0.2 the smoothed value is exactly
8298/625 = 13.2768 (not ≈ 12.1), the market price is 18 and the gap is
negative. -/
theorem C8_smoothing_lags_rising_trend :
    (∀ (prices : Series) (alpha : ℚ),
        List.Chain' (fun x y : Nat × ℚ => x.2 < y.2) prices → alpha < 1 →
        (compute_ses prices alpha).1 ≤ (compute_ses prices alpha).2) ∧
    ((compute_ses [(1,10),(2,12),(3,14),(4,16),(5,18)] (1/5)).1 = 8298/625 ∧
     (compute_ses [(1,10),(2,12),(3,14),(4,16),(5,18)] (1/5)).2 = 18 ∧
     (compute_ses [(1,10),(2,12),(3,14),(4,16),(5,18)] (1/5)).1 -
       (compute_ses [(1,10),(2,12),(3,14),(4,16),(5,18)] (1/5)).2 < 0) := by
  constructor
  · intro prices alpha hch ha
    match prices with
    | [] => simp [compute_ses]
    | p :: rest =>
      have hrec := ses_fold_le alpha (le_of_lt ha) rest p p.2 le_rfl hch
      simpa [compute_ses] using hrec
  · norm_num [compute_ses]

/-- Witness for C8: the lag bound applied to the concrete strictly
increasing two-point series [10, 12] with alpha = 1/5. -/
theorem C8_smoothing_lags_witness :
    List.Chain' (fun x y : Nat × ℚ => x.2 < y.2) [(1,10),(2,12)] ∧
    ((1 : ℚ)/5 < 1) ∧
    (compute_ses [(1,10),(2,12)] (1/5)).1 ≤ (compute_ses [(1,10),(2,12)] (1/5)).2 :=
  ⟨by simp [List.chain'_cons, List.chain'_singleton]; norm_num,
   by norm_num,
   C8_smoothing_lags_rising_trend.1 [(1,10),(2,12)] (1/5)
     (by simp [List.chain'_cons, List.chain'_singleton]; norm_num) (by norm_num)⟩

/-- Counterexample for C8 as stated: on `[10,12,14,16,18]` with alpha = 0.2
the smoothed value is 8298/625 = 13.2768, which is more than 1 away from
the claimed ≈ 12.1. -/
theorem C8_counterexample_smoothed_not_12_1 :
    (compute_ses [(1,10),(2,12),(3,14),(4,16),(5,18)] (1/5)).1 = 8298/625 ∧
    ¬ |(8298/625 : ℚ) - 121/10| < 1 := by
  norm_num [compute_ses]
  rw [abs_of_nonneg (by norm_num)]
  norm_num

/-- C2: running the strategy is idempotent per day: after one invocation of
the runner for (strategy_name, strategy_version, today), a second
invocation on the identical input history changes nothing in the database
(in particular the `valuation_daily` store) and reports an inserted count
of 0. -/
theorem C2_run_idempotent_per_day (db : DB) (table : List PriceRow)
    (tracked : List String) (today : Nat) (alpha min_mp : ℚ) (lookback : Nat)
    (sn sv : String) (rid1 rid2 : Nat) :
    runner_main (runner_main db table tracked today alpha min_mp lookback sn sv rid1).1
        table tracked today alpha min_mp lookback sn sv rid2 =
      ((runner_main db table tracked today alpha min_mp lookback sn sv rid1).1, 0) := by
  by_cases h : already_ran_today db today sn sv = true
  · simp [runner_main, h]
  · have h2 : already_ran_today
        (runner_main db table tracked today alpha min_mp lookback sn sv rid1).1
        today sn sv = true := by
      unfold runner_main
      rw [if_neg h]
      simp [generate_proposals, insert_proposals, already_ran_today,
        List.any_append]
    rw [runner_main, if_pos h2]

/-- Helper for C3: the replacement map of an upsert never changes the
primary key of a row. -/
theorem valKey_upsert_map (r x : ValuationRecord) :
    valKey (if valKey x = valKey r then r else x) = valKey x := by
  by_cases h : valKey x = valKey r
  · simp [h]
  · simp [h]

/-- Helper for C3: a single upsert into `valuation_daily` preserves
primary-key uniqueness. -/
theorem upsert_unique {l : List ValuationRecord} (r : ValuationRecord)
    (hl : UniqueKeys l) : UniqueKeys (upsert_valuation l r) := by
  unfold upsert_valuation
  by_cases h : l.any (fun x => decide (valKey x = valKey r)) = true
  · rw [if_pos h]
    exact hl.map _ (fun a b hab => by
      rw [valKey_upsert_map, valKey_upsert_map]; exact hab)
  · rw [if_neg h]
    rw [UniqueKeys, List.pairwise_append]
    refine ⟨hl, List.pairwise_singleton _ _, ?_⟩
    intro a ha b hb hk
    simp only [List.mem_singleton] at hb
    subst hb
    exact h (List.any_eq_true.mpr ⟨a, ha, by simp [hk]⟩)

/-- Helper for C3: folding any batch of upserts preserves primary-key
uniqueness. -/
theorem foldl_upsert_unique :
    ∀ (rs : List ValuationRecord) (l : List ValuationRecord),
      UniqueKeys l → UniqueKeys (rs.foldl upsert_valuation l)
  | [], _, hl => hl
  | r :: rs, _, hl => foldl_upsert_unique rs _ (upsert_unique r hl)

/-- Helper for C3: one runner invocation preserves primary-key uniqueness
of `valuation_daily`. -/
theorem runner_main_unique (db : DB) (table : List PriceRow)
    (tracked : List String) (today : Nat) (alpha min_mp : ℚ) (lookback : Nat)
    (sn sv : String) (rid : Nat) (h : UniqueKeys db.valuation_daily) :
    UniqueKeys ((runner_main db table tracked today alpha min_mp lookback sn sv
      rid).1).valuation_daily := by
  unfold runner_main
  by_cases hg : already_ran_today db today sn sv = true
  · rw [if_pos hg]
    exact h
  · rw [if_neg hg]
    simp only [generate_proposals, insert_proposals]
    exact foldl_upsert_unique _ _ h

/-- C3: primary-key uniqueness of `valuation_daily` is an invariant of any
number of runs, and an upsert hitting an existing key overwrites that
record in place (all fields, `run_id` included) without adding a row. -/
theorem C3_valuation_primary_key_unique :
    (∀ (db : DB) (runs : List RunParams), UniqueKeys db.valuation_daily →
        UniqueKeys (run_many db runs).valuation_daily) ∧
    (∀ (l : List ValuationRecord) (r x : ValuationRecord),
        x ∈ l → valKey x = valKey r →
        (upsert_valuation l r).length = l.length ∧
        r ∈ upsert_valuation l r ∧
        ∀ y ∈ upsert_valuation l r, valKey y = valKey r → y = r) := by
  constructor
  · intro db runs
    induction runs generalizing db with
    | nil => exact fun h => h
    | cons p ps ih =>
      intro h
      exact ih _ (runner_main_unique db p.table p.tracked p.today p.alpha
        p.min_mp p.lookback p.strategy_name p.strategy_version p.run_id h)
  · intro l r x hx hkey
    have hany : l.any (fun y => decide (valKey y = valKey r)) = true :=
      List.any_eq_true.mpr ⟨x, hx, by simp [hkey]⟩
    rw [upsert_valuation, if_pos hany]
    refine ⟨List.length_map _ _, ?_, ?_⟩
    · exact List.mem_map.mpr ⟨x, hx, by simp [hkey]⟩
    · intro y hy hky
      obtain ⟨z, _, hzy⟩ := List.mem_map.mp hy
      by_cases hz : valKey z = valKey r
      · rw [if_pos hz] at hzy
        exact hzy.symm
      · rw [if_neg hz] at hzy
        exact absurd (hzy ▸ hky) hz

/-- Witness for C3: both parts applied concretely — uniqueness of the empty
store through zero runs, and an upsert overwriting a same-key record that
differs only in `run_id`. -/
theorem C3_valuation_primary_key_unique_witness :
    UniqueKeys (⟨[], [], []⟩ : DB).valuation_daily ∧
    UniqueKeys (run_many ⟨[], [], []⟩ []).valuation_daily ∧
    ((⟨5, "A", 20, 12, 12, -8, -2/5, 1, some "normal", 1/5, 120, 5, 5, "s", "v", 1⟩ :
        ValuationRecord) ∈
      [(⟨5, "A", 20, 12, 12, -8, -2/5, 1, some "normal", 1/5, 120, 5, 5, "s", "v", 1⟩ :
        ValuationRecord)] ∧
     valKey (⟨5, "A", 20, 12, 12, -8, -2/5, 1, some "normal", 1/5, 120, 5, 5, "s", "v", 1⟩ :
        ValuationRecord) =
       valKey (⟨5, "A", 20, 12, 12, -8, -2/5, 1, some "normal", 1/5, 120, 5, 5, "s", "v", 2⟩ :
        ValuationRecord) ∧
     ((upsert_valuation
        [(⟨5, "A", 20, 12, 12, -8, -2/5, 1, some "normal", 1/5, 120, 5, 5, "s", "v", 1⟩ :
          ValuationRecord)]
        (⟨5, "A", 20, 12, 12, -8, -2/5, 1, some "normal", 1/5, 120, 5, 5, "s", "v", 2⟩ :
          ValuationRecord)).length =
       [(⟨5, "A", 20, 12, 12, -8, -2/5, 1, some "normal", 1/5, 120, 5, 5, "s", "v", 1⟩ :
          ValuationRecord)].length ∧
      (⟨5, "A", 20, 12, 12, -8, -2/5, 1, some "normal", 1/5, 120, 5, 5, "s", "v", 2⟩ :
          ValuationRecord) ∈
        upsert_valuation
          [(⟨5, "A", 20, 12, 12, -8, -2/5, 1, some "normal", 1/5, 120, 5, 5, "s", "v", 1⟩ :
            ValuationRecord)]
          (⟨5, "A", 20, 12, 12, -8, -2/5, 1, some "normal", 1/5, 120, 5, 5, "s", "v", 2⟩ :
            ValuationRecord) ∧
      ∀ y ∈ upsert_valuation
          [(⟨5, "A", 20, 12, 12, -8, -2/5, 1, some "normal", 1/5, 120, 5, 5, "s", "v", 1⟩ :
            ValuationRecord)]
          (⟨5, "A", 20, 12, 12, -8, -2/5, 1, some "normal", 1/5, 120, 5, 5, "s", "v", 2⟩ :
            ValuationRecord),
        valKey y =
          valKey (⟨5, "A", 20, 12, 12, -8, -2/5, 1, some "normal", 1/5, 120, 5, 5, "s", "v", 2⟩ :
            ValuationRecord) →
        y = (⟨5, "A", 20, 12, 12, -8, -2/5, 1, some "normal", 1/5, 120, 5, 5, "s", "v", 2⟩ :
            ValuationRecord))) :=
  ⟨List.Pairwise.nil,
   C3_valuation_primary_key_unique.1 ⟨[], [], []⟩ [] List.Pairwise.nil,
   List.mem_singleton.mpr rfl, rfl,
   C3_valuation_primary_key_unique.2 _ _ _ (List.mem_singleton.mpr rfl) rfl⟩

/-- Helper: the Bool scan for an observation dated `t`, as a proposition. -/
theorem any_date_iff (l : Series) (t : Nat) :
    (l.any (fun r => r.1 == t) = true) ↔ ∃ r ∈ l, r.1 = t := by
  simp only [List.any_eq_true, beq_iff_eq]

/-- C4: the variant selector follows the fixed preference order
["normal", "reverseHolofoil"]: it returns the first preferred variant with
an observation dated exactly the target date; failing that, the first
preferred variant with any observations; failing that `(none, [])`; and on
`variants = [("normal", []), ("reverseHolofoil", [(today, 5)])]` it
returns `("reverseHolofoil", [(today, 5)])`. -/
theorem C4_choose_variant_preference_order :
    (∀ (variants : List (String × Series)) (t : Nat),
      ((∃ r ∈ getVariant variants "normal", r.1 = t) →
        choose_variant variants t = (some "normal", getVariant variants "normal")) ∧
      (¬ (∃ r ∈ getVariant variants "normal", r.1 = t) →
        (∃ r ∈ getVariant variants "reverseHolofoil", r.1 = t) →
        choose_variant variants t =
          (some "reverseHolofoil", getVariant variants "reverseHolofoil")) ∧
      (¬ (∃ r ∈ getVariant variants "normal", r.1 = t) →
        ¬ (∃ r ∈ getVariant variants "reverseHolofoil", r.1 = t) →
        getVariant variants "normal" ≠ [] →
        choose_variant variants t = (some "normal", getVariant variants "normal")) ∧
      (¬ (∃ r ∈ getVariant variants "normal", r.1 = t) →
        ¬ (∃ r ∈ getVariant variants "reverseHolofoil", r.1 = t) →
        getVariant variants "normal" = [] →
        getVariant variants "reverseHolofoil" ≠ [] →
        choose_variant variants t =
          (some "reverseHolofoil", getVariant variants "reverseHolofoil")) ∧
      (¬ (∃ r ∈ getVariant variants "normal", r.1 = t) →
        ¬ (∃ r ∈ getVariant variants "reverseHolofoil", r.1 = t) →
        getVariant variants "normal" = [] →
        getVariant variants "reverseHolofoil" = [] →
        choose_variant variants t = (none, []))) ∧
    (∀ today : Nat,
      choose_variant [("normal", []), ("reverseHolofoil", [(today, 5)])] today =
        (some "reverseHolofoil", [(today, 5)])) := by
  constructor
  · intro variants t
    refine ⟨?_, ?_, ?_, ?_, ?_⟩
    · intro h1
      have b1 := (any_date_iff (getVariant variants "normal") t).mpr h1
      simp only [choose_variant, PREFERRED_VARIANTS, List.find?, b1]
    · intro h1 h2
      have b1 : (getVariant variants "normal").any (fun r => r.1 == t) = false :=
        Bool.eq_false_iff.mpr (fun hb => h1 ((any_date_iff _ t).mp hb))
      have b2 := (any_date_iff (getVariant variants "reverseHolofoil") t).mpr h2
      simp only [choose_variant, PREFERRED_VARIANTS, List.find?, b1, b2]
    · intro h1 h2 h3
      have b1 : (getVariant variants "normal").any (fun r => r.1 == t) = false :=
        Bool.eq_false_iff.mpr (fun hb => h1 ((any_date_iff _ t).mp hb))
      have b2 : (getVariant variants "reverseHolofoil").any (fun r => r.1 == t) = false :=
        Bool.eq_false_iff.mpr (fun hb => h2 ((any_date_iff _ t).mp hb))
      have b3 : (!(getVariant variants "normal").isEmpty) = true := by
        simp only [Bool.not_eq_true', List.isEmpty_eq_false]
        exact h3
      simp only [choose_variant, PREFERRED_VARIANTS, List.find?, b1, b2, b3]
    · intro h1 h2 h3 h4
      have b1 : (getVariant variants "normal").any (fun r => r.1 == t) = false :=
        Bool.eq_false_iff.mpr (fun hb => h1 ((any_date_iff _ t).mp hb))
      have b2 : (getVariant variants "reverseHolofoil").any (fun r => r.1 == t) = false :=
        Bool.eq_false_iff.mpr (fun hb => h2 ((any_date_iff _ t).mp hb))
      have b3 : (!(getVariant variants "normal").isEmpty) = false := by
        simp [h3]
      have b4 : (!(getVariant variants "reverseHolofoil").isEmpty) = true := by
        simp only [Bool.not_eq_true', List.isEmpty_eq_false]
        exact h4
      simp only [choose_variant, PREFERRED_VARIANTS, List.find?, b1, b2, b3, b4]
    · intro h1 h2 h3 h4
      have b1 : (getVariant variants "normal").any (fun r => r.1 == t) = false :=
        Bool.eq_false_iff.mpr (fun hb => h1 ((any_date_iff _ t).mp hb))
      have b2 : (getVariant variants "reverseHolofoil").any (fun r => r.1 == t) = false :=
        Bool.eq_false_iff.mpr (fun hb => h2 ((any_date_iff _ t).mp hb))
      have b3 : (!(getVariant variants "normal").isEmpty) = false := by
        simp [h3]
      have b4 : (!(getVariant variants "reverseHolofoil").isEmpty) = false := by
        simp [h4]
      simp only [choose_variant, PREFERRED_VARIANTS, List.find?, b1, b2, b3, b4]
  · intro today
    simp [choose_variant, PREFERRED_VARIANTS, getVariant, List.find?]

/-- Witness for C4: the date-match fallback branch applied to the concrete
mapping from the claim, with today = 3. -/
theorem C4_choose_variant_witness :
    (¬ (∃ r ∈ getVariant [("normal", []), ("reverseHolofoil", [(3, 5)])] "normal",
        r.1 = 3)) ∧
    (∃ r ∈ getVariant [("normal", []), ("reverseHolofoil", [(3, 5)])] "reverseHolofoil",
        r.1 = 3) ∧
    choose_variant [("normal", []), ("reverseHolofoil", [(3, 5)])] 3 =
      (some "reverseHolofoil",
       getVariant [("normal", []), ("reverseHolofoil", [(3, 5)])] "reverseHolofoil") :=
  ⟨by simp [getVariant, List.find?],
   by simp [getVariant, List.find?],
   (C4_choose_variant_preference_order.1
       [("normal", []), ("reverseHolofoil", [(3, 5)])] 3).2.1
     (by simp [getVariant, List.find?])
     (by simp [getVariant, List.find?])⟩

/-- Helper for C5: the selector returns no variant name exactly when it
returns the empty series. -/
theorem choose_variant_none_iff (variants : List (String × Series)) (t : Nat) :
    (choose_variant variants t).1 = none ↔ (choose_variant variants t).2 = [] := by
  unfold choose_variant
  cases h1 : PREFERRED_VARIANTS.find?
      (fun v => (getVariant variants v).any (fun r => r.1 == t)) with
  | some v =>
    have hp := List.find?_some h1
    obtain ⟨r, hr, _⟩ := List.any_eq_true.mp hp
    constructor
    · intro hc; cases hc
    · intro hc
      exact absurd (hc ▸ hr) (List.not_mem_nil r)
  | none =>
    cases h2 : PREFERRED_VARIANTS.find? (fun v => !(getVariant variants v).isEmpty) with
    | some v =>
      have hp := List.find?_some h2
      have hne : getVariant variants v ≠ [] := by
        simpa [List.isEmpty_iff] using hp
      constructor
      · intro hc; cases hc
      · intro hc; exact absurd hc hne
    | none => simp

/-- C5 (amended): per asset the computation silently produces no
ValuationRecord exactly when no series was chosen, or the chosen series'
last observation date (after sorting by date) differs from the run date,
or the last raw price is ≤ 0; the code compares the last price against the
constant 0, not against the configured `min_market_price` (rows at or
below `min_market_price` are instead excluded by the fetch query, and the
two coincide at the default `min_market_price = 0`). -/
theorem C5_skip_is_silent_and_exhaustive (asset_id : String)
    (variants : List (String × Series)) (today : Nat) (alpha : ℚ)
    (lookback : Nat) (sn sv : String) (rid : Nat) :
    process_asset asset_id variants today alpha lookback sn sv rid = none ↔
      ((choose_variant variants today).1 = none ∨
       ((sortRows (choose_variant variants today).2).getLastD (0, 0)).1 ≠ today ∨
       (compute_ses (sortRows (choose_variant variants today).2) alpha).2 ≤ 0) := by
  unfold process_asset
  by_cases h0 : (choose_variant variants today).2 = []
  · rw [if_pos h0]
    exact iff_of_true rfl (Or.inl ((choose_variant_none_iff variants today).mpr h0))
  · rw [if_neg h0]
    have hn : ¬ (choose_variant variants today).1 = none :=
      fun hc => h0 ((choose_variant_none_iff _ _).mp hc)
    by_cases h1 : ((sortRows (choose_variant variants today).2).getLastD (0, 0)).1 ≠ today
    · rw [if_pos h1]
      exact iff_of_true rfl (Or.inr (Or.inl h1))
    · rw [if_neg h1]
      by_cases h2 : (compute_ses (sortRows (choose_variant variants today).2) alpha).2 ≤ 0
      · rw [if_pos h2]
        exact iff_of_true rfl (Or.inr (Or.inr h2))
      · rw [if_neg h2]
        refine iff_of_false (by simp) ?_
        rintro (hc | hc | hc)
        · exact hn hc
        · exact h1 hc
        · exact h2 hc

/-- Counterexample for C5 as stated: with `min_market_price = -1` and one
tracked asset whose only observation is today's price -1/2, the pipeline
produces no ValuationRecord although the claim's skip conditions all fail
(a series was chosen, its last observation is dated the run date, and its
last raw price -1/2 is not ≤ min_market_price = -1); the code skips it
because -1/2 ≤ 0. -/
theorem C5_counterexample_price_guard_is_zero_not_min_price :
    ses_inserts (fetch_price_history [⟨5, "A", "normal", -1/2⟩] ["A"] 0 (-1))
        5 (1/5) 120 "exp_smoothing_v1" "v1" 7 = [] ∧
    (choose_variant [("normal", [(5, -1/2)])] 5).1 ≠ none ∧
    ((sortRows (choose_variant [("normal", [(5, -1/2)])] 5).2).getLastD (0, 0)).1 = 5 ∧
    ¬ ((compute_ses (sortRows (choose_variant [("normal", [(5, -1/2)])] 5).2) (1/5)).2 ≤ -1) := by
  refine ⟨?_, ?_, ?_, ?_⟩
  · norm_num [ses_inserts, fetch_price_history, group_rows, upd_assoc, process_asset,
      choose_variant, getVariant, PREFERRED_VARIANTS, sortRows, compute_ses,
      List.insertionSort, List.orderedInsert, List.find?]
  · simp [choose_variant, getVariant, PREFERRED_VARIANTS, List.find?]
  · norm_num [choose_variant, getVariant, PREFERRED_VARIANTS, sortRows,
      List.insertionSort, List.orderedInsert, List.find?]
  · norm_num [choose_variant, getVariant, PREFERRED_VARIANTS, sortRows, compute_ses,
      List.insertionSort, List.orderedInsert, List.find?]

/-- Helper: the last element (with default) of a non-empty list is a
member of the list. -/
theorem getLastD_mem {α : Type} : ∀ (l : List α) (d : α), l ≠ [] → l.getLastD d ∈ l
  | [x], _, _ => by simp
  | x :: y :: t, d, _ => by
    rw [List.getLastD_cons]
    exact List.mem_cons_of_mem x (getLastD_mem (y :: t) x (by simp))

/-- Helper: sorting a series preserves membership. -/
theorem mem_sortRows {x : Nat × ℚ} {rows : Series} :
    x ∈ sortRows rows ↔ x ∈ rows :=
  List.mem_insertionSort _

/-- Helper: sorting a non-empty series yields a non-empty list. -/
theorem sortRows_ne_nil {rows : Series} (h : rows ≠ []) : sortRows rows ≠ [] := by
  intro hc
  have hperm := List.perm_insertionSort (fun a b : Nat × ℚ => a.1 ≤ b.1) rows
  rw [show List.insertionSort (fun a b : Nat × ℚ => a.1 ≤ b.1) rows = sortRows rows
      from rfl, hc] at hperm
  exact h hperm.symm.eq_nil

/-- Helper: the series component of the selector is either empty or the
series of one of the preferred variants. -/
theorem choose_variant_snd_cases (variants : List (String × Series)) (t : Nat) :
    (choose_variant variants t).2 = [] ∨
    ∃ v ∈ PREFERRED_VARIANTS, (choose_variant variants t).2 = getVariant variants v := by
  unfold choose_variant
  cases h1 : PREFERRED_VARIANTS.find?
      (fun v => (getVariant variants v).any (fun r => r.1 == t)) with
  | some v => exact Or.inr ⟨v, List.mem_of_find?_eq_some h1, rfl⟩
  | none =>
    cases h2 : PREFERRED_VARIANTS.find? (fun v => !(getVariant variants v).isEmpty) with
    | some v => exact Or.inr ⟨v, List.mem_of_find?_eq_some h2, rfl⟩
    | none => exact Or.inl rfl

/-- Helper: facts about every record that `process_asset` emits — it is
dated today, its gap fields satisfy their defining formulas, its market
price is positive, and the chosen series contains an observation dated
today. -/
theorem process_asset_some_spec {asset_id : String}
    {variants : List (String × Series)} {today : Nat} {alpha : ℚ}
    {lookback : Nat} {sn sv : String} {rid : Nat} {r : ValuationRecord}
    (h : process_asset asset_id variants today alpha lookback sn sv rid = some r) :
    r.val_date = today ∧ r.gap = r.forecast_price - r.market_price ∧
    r.gap_pct = r.gap / r.market_price ∧ 0 < r.market_price ∧
    r.forecast_price = r.smooth_price ∧
    ∃ row ∈ (choose_variant variants today).2, row.1 = today := by
  unfold process_asset at h
  by_cases h0 : (choose_variant variants today).2 = []
  · rw [if_pos h0] at h; cases h
  · rw [if_neg h0] at h
    by_cases h1 : ((sortRows (choose_variant variants today).2).getLastD (0, 0)).1 ≠ today
    · rw [if_pos h1] at h; cases h
    · rw [if_neg h1] at h
      by_cases h2 : (compute_ses (sortRows (choose_variant variants today).2) alpha).2 ≤ 0
      · rw [if_pos h2] at h; cases h
      · rw [if_neg h2] at h
        rw [not_not] at h1
        rw [not_le] at h2
        injection h with h
        subst h
        refine ⟨h1, rfl, rfl, h2, rfl, ?_⟩
        refine ⟨(sortRows (choose_variant variants today).2).getLastD (0, 0), ?_, h1⟩
        exact mem_sortRows.mp
          (getLastD_mem _ _ (sortRows_ne_nil h0))

/-- C6: every emitted ValuationRecord satisfies
`gap = forecast_price - market_price` and `gap_pct = gap / market_price`,
and the division is only reached with `market_price > 0` because the
preceding filter skips assets whose market price is ≤ 0. -/
theorem C6_gap_formulas_guarded (history : List PriceRow) (today : Nat)
    (alpha : ℚ) (lookback : Nat) (sn sv : String) (rid : Nat)
    (r : ValuationRecord)
    (hr : r ∈ ses_inserts history today alpha lookback sn sv rid) :
    r.gap = r.forecast_price - r.market_price ∧
    r.gap_pct = r.gap / r.market_price ∧ 0 < r.market_price := by
  obtain ⟨av, _, hsome⟩ := List.mem_filterMap.mp hr
  obtain ⟨_, hgap, hpct, hpos, _, _⟩ := process_asset_some_spec hsome
  exact ⟨hgap, hpct, hpos⟩

/-- Witness for C6: the gap formulas on the record emitted for a one-point
history priced 20 on the run day. -/
theorem C6_gap_formulas_witness :
    ((⟨5, "A", 20, 20, 20, 0, 0, 1, some "normal", 1/5, 120, 1, 5,
        "exp_smoothing_v1", "v1", 7⟩ : ValuationRecord) ∈
      ses_inserts [⟨5, "A", "normal", 20⟩] 5 (1/5) 120 "exp_smoothing_v1" "v1" 7) ∧
    ((⟨5, "A", 20, 20, 20, 0, 0, 1, some "normal", 1/5, 120, 1, 5,
        "exp_smoothing_v1", "v1", 7⟩ : ValuationRecord).gap =
        (⟨5, "A", 20, 20, 20, 0, 0, 1, some "normal", 1/5, 120, 1, 5,
          "exp_smoothing_v1", "v1", 7⟩ : ValuationRecord).forecast_price -
        (⟨5, "A", 20, 20, 20, 0, 0, 1, some "normal", 1/5, 120, 1, 5,
          "exp_smoothing_v1", "v1", 7⟩ : ValuationRecord).market_price ∧
     (⟨5, "A", 20, 20, 20, 0, 0, 1, some "normal", 1/5, 120, 1, 5,
        "exp_smoothing_v1", "v1", 7⟩ : ValuationRecord).gap_pct =
        (⟨5, "A", 20, 20, 20, 0, 0, 1, some "normal", 1/5, 120, 1, 5,
          "exp_smoothing_v1", "v1", 7⟩ : ValuationRecord).gap /
        (⟨5, "A", 20, 20, 20, 0, 0, 1, some "normal", 1/5, 120, 1, 5,
          "exp_smoothing_v1", "v1", 7⟩ : ValuationRecord).market_price ∧
     0 < (⟨5, "A", 20, 20, 20, 0, 0, 1, some "normal", 1/5, 120, 1, 5,
        "exp_smoothing_v1", "v1", 7⟩ : ValuationRecord).market_price) :=
  ⟨by norm_num [ses_inserts, group_rows, upd_assoc, process_asset, choose_variant,
      getVariant, PREFERRED_VARIANTS, sortRows, compute_ses, List.insertionSort,
      List.orderedInsert, List.find?],
   C6_gap_formulas_guarded [⟨5, "A", "normal", 20⟩] 5 (1/5) 120
     "exp_smoothing_v1" "v1" 7 _
     (by norm_num [ses_inserts, group_rows, upd_assoc, process_asset, choose_variant,
        getVariant, PREFERRED_VARIANTS, sortRows, compute_ses, List.insertionSort,
        List.orderedInsert, List.find?])⟩

/-- C7 (amended): for an asset A with 5 consecutive daily prices
[10,10,10,10,20] ending on the run day, alpha = 0.2 and min_price = 0, the
run produces exactly one ValuationRecord for A dated today with
market_price = 20, smooth_price = 12 (not ≈ 11.6), gap = -8 (not ≈ -8.4)
and gap_pct = -2/5 (not ≈ -0.42). -/
theorem C7_end_to_end_scenario :
    (runner_main ⟨[], [], []⟩
        [⟨1, "A", "normal", 10⟩, ⟨2, "A", "normal", 10⟩, ⟨3, "A", "normal", 10⟩,
         ⟨4, "A", "normal", 10⟩, ⟨5, "A", "normal", 20⟩]
        ["A"] 5 (1/5) 0 120 "exp_smoothing_v1" "v1" 7).1.valuation_daily =
      [⟨5, "A", 20, 12, 12, -8, -2/5, 1, some "normal", 1/5, 120, 5, 5,
        "exp_smoothing_v1", "v1", 7⟩] := by
  norm_num [runner_main, already_ran_today, generate_proposals, insert_proposals,
    ses_inserts, fetch_price_history, group_rows, upd_assoc, process_asset,
    choose_variant, getVariant, PREFERRED_VARIANTS, sortRows, compute_ses,
    List.insertionSort, List.orderedInsert, List.find?, upsert_valuation, valKey,
    List.filterMap, List.foldl]

/-- Counterexample for C7 as stated: the record for the scenario has
smooth_price = 12 and gap = -8, each at distance 2/5 = 0.4 from the
claimed ≈ 11.6 and ≈ -8.4 — outside any one-decimal rounding. -/
theorem C7_counterexample_smooth_price_is_12 :
    ((runner_main ⟨[], [], []⟩
        [⟨1, "A", "normal", 10⟩, ⟨2, "A", "normal", 10⟩, ⟨3, "A", "normal", 10⟩,
         ⟨4, "A", "normal", 10⟩, ⟨5, "A", "normal", 20⟩]
        ["A"] 5 (1/5) 0 120 "exp_smoothing_v1" "v1" 7).1.valuation_daily.map
      (fun r => (r.smooth_price, r.gap, r.gap_pct))) = [(12, -8, -2/5)] ∧
    (3/10 : ℚ) ≤ |(12 : ℚ) - 58/5| ∧ (3/10 : ℚ) ≤ |(-8 : ℚ) + 42/5| := by
  refine ⟨?_, ?_, ?_⟩
  · norm_num [runner_main, already_ran_today, generate_proposals, insert_proposals,
      ses_inserts, fetch_price_history, group_rows, upd_assoc, process_asset,
      choose_variant, getVariant, PREFERRED_VARIANTS, sortRows, compute_ses,
      List.insertionSort, List.orderedInsert, List.find?, upsert_valuation, valKey,
      List.filterMap, List.foldl]
  · rw [show (12 : ℚ) - 58/5 = 2/5 by norm_num, abs_of_nonneg (by norm_num)]
    norm_num
  · rw [show (-8 : ℚ) + 42/5 = 2/5 by norm_num, abs_of_nonneg (by norm_num)]
    norm_num

/-- C9 (amended): a successful (non-skipped) run writes exactly one
RunRecord and returns the count of inserted trade proposals; since the
exp_smoothing_v1 strategy returns an empty proposal list (it writes
valuations directly), both the recorded count and the returned count are
always 0, independent of how many ValuationRecords were upserted. -/
theorem C9_run_record_counts_proposals (db : DB) (table : List PriceRow)
    (tracked : List String) (today : Nat) (alpha min_mp : ℚ) (lookback : Nat)
    (sn sv : String) (rid : Nat)
    (h : already_ran_today db today sn sv = false) :
    (runner_main db table tracked today alpha min_mp lookback sn sv rid).1.strategy_run =
      db.strategy_run ++ [⟨rid, today, sn, sv, 0, "ok"⟩] ∧
    (runner_main db table tracked today alpha min_mp lookback sn sv rid).2 = 0 ∧
    (runner_main db table tracked today alpha min_mp lookback sn sv
        rid).1.trade_proposal = db.trade_proposal := by
  unfold runner_main
  rw [if_neg (by simp [h])]
  simp [generate_proposals, insert_proposals]

/-- Witness for C9: the amended statement on an empty database with the
five-day history of the end-to-end scenario. -/
theorem C9_run_record_counts_witness :
    already_ran_today ⟨[], [], []⟩ 5 "exp_smoothing_v1" "v1" = false ∧
    ((runner_main ⟨[], [], []⟩
        [⟨1, "A", "normal", 10⟩, ⟨2, "A", "normal", 10⟩, ⟨3, "A", "normal", 10⟩,
         ⟨4, "A", "normal", 10⟩, ⟨5, "A", "normal", 20⟩]
        ["A"] 5 (1/5) 0 120 "exp_smoothing_v1" "v1" 7).1.strategy_run =
      [] ++ [⟨7, 5, "exp_smoothing_v1", "v1", 0, "ok"⟩] ∧
     (runner_main ⟨[], [], []⟩
        [⟨1, "A", "normal", 10⟩, ⟨2, "A", "normal", 10⟩, ⟨3, "A", "normal", 10⟩,
         ⟨4, "A", "normal", 10⟩, ⟨5, "A", "normal", 20⟩]
        ["A"] 5 (1/5) 0 120 "exp_smoothing_v1" "v1" 7).2 = 0 ∧
     (runner_main ⟨[], [], []⟩
        [⟨1, "A", "normal", 10⟩, ⟨2, "A", "normal", 10⟩, ⟨3, "A", "normal", 10⟩,
         ⟨4, "A", "normal", 10⟩, ⟨5, "A", "normal", 20⟩]
        ["A"] 5 (1/5) 0 120 "exp_smoothing_v1" "v1" 7).1.trade_proposal = []) :=
  ⟨rfl,
   C9_run_record_counts_proposals ⟨[], [], []⟩
     [⟨1, "A", "normal", 10⟩, ⟨2, "A", "normal", 10⟩, ⟨3, "A", "normal", 10⟩,
      ⟨4, "A", "normal", 10⟩, ⟨5, "A", "normal", 20⟩]
     ["A"] 5 (1/5) 0 120 "exp_smoothing_v1" "v1" 7 rfl⟩

/-- Counterexample for C9 as stated: the end-to-end scenario run upserts
one ValuationRecord, yet its RunRecord carries inserted count 0 — the
recorded count reflects trade proposals, not upserted valuations. -/
theorem C9_counterexample_inserted_count_not_valuations :
    ((runner_main ⟨[], [], []⟩
        [⟨1, "A", "normal", 10⟩, ⟨2, "A", "normal", 10⟩, ⟨3, "A", "normal", 10⟩,
         ⟨4, "A", "normal", 10⟩, ⟨5, "A", "normal", 20⟩]
        ["A"] 5 (1/5) 0 120 "exp_smoothing_v1" "v1" 7).1.strategy_run.map
      (fun r => r.inserted_proposals)) = [0] ∧
    (runner_main ⟨[], [], []⟩
        [⟨1, "A", "normal", 10⟩, ⟨2, "A", "normal", 10⟩, ⟨3, "A", "normal", 10⟩,
         ⟨4, "A", "normal", 10⟩, ⟨5, "A", "normal", 20⟩]
        ["A"] 5 (1/5) 0 120 "exp_smoothing_v1" "v1"
        7).1.valuation_daily.length = 1 ∧
    (0 : Nat) ≠ 1 := by
  refine ⟨?_, ?_, by norm_num⟩
  · norm_num [runner_main, already_ran_today, generate_proposals, insert_proposals,
      ses_inserts, fetch_price_history, group_rows, upd_assoc, process_asset,
      choose_variant, getVariant, PREFERRED_VARIANTS, sortRows, compute_ses,
      List.insertionSort, List.orderedInsert, List.find?, upsert_valuation, valKey,
      List.filterMap, List.foldl]
  · norm_num [runner_main, already_ran_today, generate_proposals, insert_proposals,
      ses_inserts, fetch_price_history, group_rows, upd_assoc, process_asset,
      choose_variant, getVariant, PREFERRED_VARIANTS, sortRows, compute_ses,
      List.insertionSort, List.orderedInsert, List.find?, upsert_valuation, valKey,
      List.filterMap, List.foldl]

/-- C10: the selector's fallback branch never yields an emitted valuation —
if no preferred variant of an asset has an observation dated exactly the
run day, no record is emitted for it; every emitted record is dated the
run day and comes from a chosen series with an observation on that day. -/
theorem C10_fallback_never_emits :
    (∀ (asset_id : String) (variants : List (String × Series)) (today : Nat)
        (alpha : ℚ) (lookback : Nat) (sn sv : String) (rid : Nat),
      (∀ v ∈ PREFERRED_VARIANTS, ∀ row ∈ getVariant variants v, row.1 ≠ today) →
      process_asset asset_id variants today alpha lookback sn sv rid = none) ∧
    (∀ (asset_id : String) (variants : List (String × Series)) (today : Nat)
        (alpha : ℚ) (lookback : Nat) (sn sv : String) (rid : Nat)
        (r : ValuationRecord),
      process_asset asset_id variants today alpha lookback sn sv rid = some r →
      r.val_date = today ∧ ∃ row ∈ (choose_variant variants today).2, row.1 = today) ∧
    (∀ (history : List PriceRow) (today : Nat) (alpha : ℚ) (lookback : Nat)
        (sn sv : String) (rid : Nat),
      ∀ r ∈ ses_inserts history today alpha lookback sn sv rid,
        r.val_date = today) := by
  refine ⟨?_, ?_, ?_⟩
  · intro asset_id variants today alpha lookback sn sv rid hno
    cases hc : process_asset asset_id variants today alpha lookback sn sv rid with
    | none => rfl
    | some r =>
      obtain ⟨_, _, _, _, _, row, hrow, hdate⟩ := process_asset_some_spec hc
      rcases choose_variant_snd_cases variants today with hnil | ⟨v, hv, heq⟩
      · rw [hnil] at hrow
        exact absurd hrow (List.not_mem_nil row)
      · rw [heq] at hrow
        exact absurd hdate (hno v hv row hrow)
  · intro asset_id variants today alpha lookback sn sv rid r hc
    obtain ⟨hdate, _, _, _, _, hex⟩ := process_asset_some_spec hc
    exact ⟨hdate, hex⟩
  · intro history today alpha lookback sn sv rid r hr
    obtain ⟨av, _, hsome⟩ := List.mem_filterMap.mp hr
    exact (process_asset_some_spec hsome).1

/-- Witness for C10: the no-fresh-observation part applied to an asset
whose only observation is dated 1 while the run day is 5. -/
theorem C10_fallback_never_emits_witness :
    (∀ v ∈ PREFERRED_VARIANTS,
        ∀ row ∈ getVariant [("normal", [(1, (10 : ℚ))])] v, row.1 ≠ 5) ∧
    process_asset "A" [("normal", [(1, (10 : ℚ))])] 5 (1/5) 120
      "exp_smoothing_v1" "v1" 7 = none :=
  ⟨by simp [PREFERRED_VARIANTS, getVariant, List.find?],
   C10_fallback_never_emits.1 "A" [("normal", [(1, (10 : ℚ))])] 5 (1/5) 120
     "exp_smoothing_v1" "v1" 7
     (by simp [PREFERRED_VARIANTS, getVariant, List.find?])⟩

end PokePlatform
